import Mathlib

/-!
# sslcheck: days until a TLS certificate expires

A shallow embedding of `src/sslcheck.c`.  The program's own code
(`days_until_expiration`, the option loop and the body of `main`) is
translated statement by statement.  What the program calls in libraries
(the C formatted-output functions, `getopt_long`, `gettext`, OpenSSL) is
the environment: its answers are fields of `Env`, or small models of the
documented library behaviour, each marked as such.
-/

namespace SslCheck

/-! ## C strings and formatted output -/

/-- A C string: the bytes before the terminating NUL, one list element per
C `char`. -/
abbrev CStr := List Char

/-- An argument handed to a `printf`-family call. -/
inductive Arg where
  | str (s : CStr)
  | int (n : Int)

/-- Library model of the `%d` conversion: a minus sign for a negative value,
then the decimal digits without leading zeros. -/
def fmt_d (n : Int) : CStr :=
  if n < 0 then '-' :: Nat.toDigits 10 n.natAbs else Nat.toDigits 10 n.natAbs

/-- Library model of the `printf` formatter for the conversions the program
uses: `%s` takes a string argument, `%d` an `int` argument, `%%` is a
percent sign, every other character is copied.  (A conversion without a
matching argument is undefined in C; here it is copied as it stands.) -/
def vformat : CStr → List Arg → CStr
  | [], _ => []
  | '%' :: 's' :: rest, Arg.str s :: args => s ++ vformat rest args
  | '%' :: 'd' :: rest, Arg.int n :: args => fmt_d n ++ vformat rest args
  | '%' :: '%' :: rest, args => '%' :: vformat rest args
  | c :: rest, args => c :: vformat rest args

/-- Library model of `snprintf(buf, size, fmt, ...)`: the formatted text cut
to the `size - 1` characters that fit before the terminating NUL. -/
def snprintf (size : Nat) (fmt : CStr) (args : List Arg) : CStr :=
  (vformat fmt args).take (size - 1)

/-! ## Time: the OpenSSL primitives used by `days_until_expiration` -/

/-- An `ASN1_TIME` value: `some t` when its text denotes the instant `t`
(seconds since the epoch, UTC), `none` when it does not denote a valid
instant. -/
abbrev ASN1_TIME := Option Int

/-- The peer certificate, of which the program reads the `notAfter` field. -/
structure X509 where
  notAfter : ASN1_TIME

def X509_get0_notAfter (cert : X509) : ASN1_TIME := cert.notAfter

/-- Library model of `ASN1_TIME_set(s, t)`: the time value for the clock
reading `t`, which is taken to lie in the years 0000 to 9999 that an
`ASN1_TIME` can hold. -/
def ASN1_TIME_set (t : Int) : ASN1_TIME := some t

def SECS_PER_DAY : Int := 86400

/-- Library model of OpenSSL `OPENSSL_gmtime_diff`: each instant is split
into a day number and a second of the day, the two parts are subtracted, and
the differences are adjusted so that they never have opposite signs.  (The
day difference of two `ASN1_TIME` values is below four million, so it is
stored in the `int` output without loss.) -/
def OPENSSL_gmtime_diff (tfrom tto : Int) : Int × Int :=
  let from_jd := tfrom / SECS_PER_DAY
  let from_sec := tfrom % SECS_PER_DAY
  let to_jd := tto / SECS_PER_DAY
  let to_sec := tto % SECS_PER_DAY
  let diff_day := to_jd - from_jd
  let diff_sec := to_sec - from_sec
  let (diff_day, diff_sec) :=
    if diff_day > 0 ∧ diff_sec < 0 then (diff_day - 1, diff_sec + SECS_PER_DAY)
    else (diff_day, diff_sec)
  let (diff_day, diff_sec) :=
    if diff_day < 0 ∧ diff_sec > 0 then (diff_day + 1, diff_sec - SECS_PER_DAY)
    else (diff_day, diff_sec)
  (diff_day, diff_sec)

/-- Library model of `ASN1_TIME_diff(&day, &sec, from, to)`.  The first two
arguments are the values the output variables hold before the call.  The
result is the return code and the values they hold afterwards: when either
time is not a valid instant the call returns 0 and writes nothing. -/
def ASN1_TIME_diff (day sec : Int) (tfrom tto : ASN1_TIME) : Int × Int × Int :=
  match tfrom, tto with
  | some a, some b =>
    let r := OPENSSL_gmtime_diff a b
    (1, r.1, r.2)
  | _, _ => (0, day, sec)

/-- The function `days_until_expiration`, with the clock reading
`time(NULL)` passed in as `now`. -/
def days_until_expiration (now : Int) (cert : X509) : Int :=
  let notAfter := X509_get0_notAfter cert
  let asn1_now := ASN1_TIME_set now
  let days : Int := 0
  let seconds : Int := 0
  let r := ASN1_TIME_diff days seconds asn1_now notAfter
  let days := r.2.1
  days

/-! ## The environment of one run -/

/-- What the libraries answer during one run. -/
structure Env where
  /-- Message catalogue lookup, `_(msgid)`. -/
  gettext : CStr → CStr
  /-- The constants of `sslcheck.h`. -/
  VERSION : CStr
  AUTHOR : CStr
  /-- The strings that `get_platform` and `get_arch` are compiled to return. -/
  get_platform : CStr
  get_arch : CStr
  /-- Whether `SSL_CTX_new` returns a context. -/
  ctx_new : Bool
  /-- Whether `ssl` is non-null after `BIO_get_ssl`. -/
  get_ssl : Bool
  /-- Return value of `BIO_do_connect` for a connection target and the
  hostname given to the session. -/
  do_connect : CStr → CStr → Int
  /-- Result of `SSL_get_peer_certificate` after that connection. -/
  peer_cert : CStr → CStr → Option X509
  /-- Clock reading `time(NULL)`. -/
  now : Int

/-- One value returned by `getopt_long` before it returns -1.  `other` is any
value outside `s j p h v` (an unknown option, a missing argument); it
carries the diagnostic that `getopt_long` itself wrote to stderr. -/
inductive Opt where
  | s
  | j
  | p (optarg : CStr)
  | h
  | v
  | other (diag : CStr)

/-- The variables set by the option loop. -/
structure Config where
  short_output : Bool
  json_output : Bool
  port : CStr

/-- What a run leaves behind: the text written to the two streams, the exit
status, the SNI name that `SSL_set_tlsext_host_name` set on the session and
the target handed to `BIO_set_conn_hostname` (`none` when nothing was set). -/
structure Run where
  stdout : CStr
  stderr : CStr
  exit : Int
  sni : Option CStr
  target : Option CStr

/-- Library model of `SSL_set_tlsext_host_name(ssl, name)`: the name is set
on the session when it has 1 to 255 bytes (`TLSEXT_MAXLEN_host_name`);
otherwise the call fails and sets no name.  The result is the name the
session holds afterwards. -/
def SSL_set_tlsext_host_name (name : CStr) : Option CStr :=
  if 0 < name.length ∧ name.length ≤ 255 then some name else none

def EXIT_SUCCESS : Int := 0

def EXIT_FAILURE : Int := 1

/-! ## The program -/

/-- The variables of `main` as initialised before the option loop. -/
def init_config : Config :=
  { short_output := false, json_output := false, port := "443".toList }

/-- Text written by `print_version`. -/
def print_version (env : Env) : CStr :=
  vformat (env.gettext "SSLCHECK %s (%s, %s)\n".toList)
      [Arg.str env.VERSION, Arg.str env.get_platform, Arg.str env.get_arch]
    ++ vformat "%s\n".toList [Arg.str env.AUTHOR]

/-- Text written by `print_help`. -/
def print_help (env : Env) : CStr :=
  vformat (env.gettext "SSLCHECK %s (%s, %s)\n".toList)
      [Arg.str env.VERSION, Arg.str env.get_platform, Arg.str env.get_arch]
    ++ vformat "%s\n\n".toList [Arg.str env.AUTHOR]
    ++ vformat (env.gettext
        "sslcheck <domain>         prints domain and remainder of days until cert expires\n".toList) []
    ++ vformat (env.gettext "-s --short <domain>       prints only the days\n".toList) []
    ++ vformat (env.gettext "-j --json <domain>        prints output as JSON\n".toList) []
    ++ vformat (env.gettext "-p --port <port>          use custom port instead of 443\n".toList) []
    ++ vformat (env.gettext "-h --help                 prints this menu\n".toList) []
    ++ vformat (env.gettext "-v --version              prints version\n".toList) []

/-- The `while ((opt = getopt_long(...)) != -1)` loop of `main`, run over the
values `getopt_long` returns.  `Except.error` is a `return` from inside the
loop. -/
def option_loop (env : Env) : List Opt → Config → Except Run Config
  | [], cfg => Except.ok cfg
  | Opt.s :: rest, cfg => option_loop env rest { cfg with short_output := true }
  | Opt.j :: rest, cfg => option_loop env rest { cfg with json_output := true }
  | Opt.p optarg :: rest, cfg =>
    option_loop env rest { cfg with port := snprintf 6 "%s".toList [Arg.str optarg] }
  | Opt.h :: _, _ =>
    Except.error { stdout := print_help env, stderr := [], exit := 0, sni := none, target := none }
  | Opt.v :: _, _ =>
    Except.error { stdout := print_version env, stderr := [], exit := 0, sni := none, target := none }
  | Opt.other diag :: _, _ =>
    Except.error
      { stdout := print_help env, stderr := diag, exit := EXIT_FAILURE, sni := none, target := none }

/-- The part of `main` after `hostname = argv[optind]`. -/
def main_body (env : Env) (cfg : Config) (hostname : CStr) : Run :=
  if !env.ctx_new then
    if cfg.json_output then
      { stdout := vformat "\x7b\"domain\": \"%s\", \"days\": null\x7d\n".toList [Arg.str hostname],
        stderr := [], exit := EXIT_FAILURE, sni := none, target := none }
    else
      { stdout := [], stderr := vformat (env.gettext "Error creating SSL context\n".toList) [],
        exit := EXIT_FAILURE, sni := none, target := none }
  else
    let target := snprintf 512 "%s:%s".toList [Arg.str hostname, Arg.str cfg.port]
    if !env.get_ssl then
      if cfg.json_output then
        { stdout := vformat "\x7b\"domain\": \"%s\", \"days\": null\x7d\n".toList [Arg.str hostname],
          stderr := [], exit := EXIT_FAILURE, sni := none, target := none }
      else
        { stdout := [], stderr := vformat (env.gettext "Error getting SSL object\n".toList) [],
          exit := EXIT_FAILURE, sni := none, target := none }
    else
      -- SSL_set_tlsext_host_name(ssl, hostname), its return value dropped;
      -- BIO_set_conn_hostname(bio, target)
      if env.do_connect target hostname ≤ 0 then
        if cfg.json_output then
          { stdout := vformat "\x7b\"domain\": \"%s\", \"days\": null\x7d\n".toList [Arg.str hostname],
            stderr := [], exit := EXIT_FAILURE, sni := SSL_set_tlsext_host_name hostname, target := some target }
        else
          { stdout := [],
            stderr := vformat (env.gettext "Error connecting to %s\n".toList) [Arg.str hostname],
            exit := EXIT_FAILURE, sni := SSL_set_tlsext_host_name hostname, target := some target }
      else
        match env.peer_cert target hostname with
        | none =>
          if cfg.json_output then
            { stdout := vformat "\x7b\"domain\": \"%s\", \"days\": null\x7d\n".toList [Arg.str hostname],
              stderr := [], exit := EXIT_FAILURE, sni := SSL_set_tlsext_host_name hostname, target := some target }
          else
            { stdout := [],
              stderr := vformat (env.gettext "No certificate found for %s\n".toList) [Arg.str hostname],
              exit := EXIT_FAILURE, sni := SSL_set_tlsext_host_name hostname, target := some target }
        | some cert =>
          let days := days_until_expiration env.now cert
          if days < 0 then
            if cfg.json_output then
              { stdout := vformat "\x7b\"domain\": \"%s\", \"days\": null\x7d\n".toList [Arg.str hostname],
                stderr := [], exit := EXIT_SUCCESS, sni := SSL_set_tlsext_host_name hostname, target := some target }
            else
              { stdout := [],
                stderr := vformat (env.gettext "Could not calculate certificate expiration\n".toList) [],
                exit := EXIT_SUCCESS, sni := SSL_set_tlsext_host_name hostname, target := some target }
          else
            if cfg.json_output then
              { stdout := vformat "\x7b\"domain\": \"%s\", \"days\": %d\x7d\n".toList
                  [Arg.str hostname, Arg.int days],
                stderr := [], exit := EXIT_SUCCESS, sni := SSL_set_tlsext_host_name hostname, target := some target }
            else if cfg.short_output then
              { stdout := vformat "%d\n".toList [Arg.int days],
                stderr := [], exit := EXIT_SUCCESS, sni := SSL_set_tlsext_host_name hostname, target := some target }
            else
              { stdout := vformat (env.gettext
                    "Domain: %s | Days until Certification expires: %d\n".toList)
                  [Arg.str hostname, Arg.int days],
                stderr := [], exit := EXIT_SUCCESS, sni := SSL_set_tlsext_host_name hostname, target := some target }

/-- The program `main`: `opts` are the values `getopt_long` returns in turn,
`operands` are `argv[optind]` and the arguments after it. -/
def main (env : Env) (opts : List Opt) (operands : List CStr) : Run :=
  match option_loop env opts init_config with
  | Except.error r => r
  | Except.ok cfg =>
    match operands with
    | [] =>
      { stdout := print_help env, stderr := [], exit := EXIT_FAILURE, sni := none, target := none }
    | hostname :: _ => main_body env cfg hostname

/-- The connection target built by `snprintf(target, sizeof(target), "%s:%s", hostname, port)`. -/
def conn_target (cfg : Config) (hostname : CStr) : CStr :=
  snprintf 512 "%s:%s".toList [Arg.str hostname, Arg.str cfg.port]

/-- The run gets past the four early returns of `main` with the peer
certificate `cert`. -/
def reaches_cert (env : Env) (cfg : Config) (hostname : CStr) (cert : X509) : Prop :=
  env.ctx_new = true ∧ env.get_ssl = true ∧
    0 < env.do_connect (conn_target cfg hostname) hostname ∧
    env.peer_cert (conn_target cfg hostname) hostname = some cert

/-- The run reaches the branch of `main` that prints a day count. -/
def succeeds (env : Env) (cfg : Config) (hostname : CStr) : Prop :=
  ∃ cert, reaches_cert env cfg hostname cert ∧ 0 ≤ days_until_expiration env.now cert

/-- The JSON line with a null day count, for a hostname. -/
def null_line (hostname : CStr) : CStr :=
  "\x7b\"domain\": \"".toList ++ hostname ++ "\", \"days\": null\x7d\n".toList

/-- The JSON line with a day count, for a hostname. -/
def days_line (hostname : CStr) (days : Nat) : CStr :=
  "\x7b\"domain\": \"".toList ++ hostname ++ "\", \"days\": ".toList ++ Nat.toDigits 10 days
    ++ "\x7d\n".toList

/-- An environment for examples: untranslated messages, a server that
accepts the connection and presents a certificate with the given `notAfter`. -/
def sample_env (now : Int) (notAfter : ASN1_TIME) : Env :=
  { gettext := id, VERSION := "1.0".toList, AUTHOR := "author".toList,
    get_platform := "Linux".toList, get_arch := "x86_64".toList,
    ctx_new := true, get_ssl := true,
    do_connect := fun _ _ => 1,
    peer_cert := fun _ _ => some { notAfter := notAfter },
    now := now }

/-- An environment for examples in which no connection completes. -/
def refusing_env : Env :=
  { sample_env 0 none with do_connect := fun _ _ => 0, peer_cert := fun _ _ => none }

/-! ## JSON documents (RFC 8259) -/

/-- A decoded JSON value.  A string is held as its UTF-8 bytes; a number
keeps its integer part as a value and its fraction and exponent as written. -/
inductive JSON where
  | null
  | bool (b : Bool)
  | num (int : Int) (frac : CStr) (exp : CStr)
  | str (s : CStr)
  | arr (items : List JSON)
  | obj (members : List (CStr × JSON))

def isWs (c : Char) : Bool := c = ' ' || c = '\n' || c = '\r' || c = '\t'

def skipWs : CStr → CStr
  | [] => []
  | c :: cs => if isWs c then skipWs cs else c :: cs

def isDigit (c : Char) : Bool := 48 ≤ c.toNat && c.toNat ≤ 57

/-- Reads the digits at the front, continuing the decimal value `acc`. -/
def readDigits : CStr → Nat → Nat × CStr
  | [], acc => (acc, [])
  | c :: cs, acc => if isDigit c then readDigits cs (acc * 10 + (c.toNat - 48)) else (acc, c :: cs)

/-- The digits at the front, and what follows them. -/
def spanDigits : CStr → CStr × CStr
  | [] => ([], [])
  | c :: cs => if isDigit c then ((spanDigits cs).1.cons c, (spanDigits cs).2) else ([], c :: cs)

/-- Integer part of a number: `0`, or digits that do not start with `0`. -/
def parseNat : CStr → Option (Nat × CStr)
  | [] => none
  | c :: cs =>
    if c = '0' then some (0, cs)
    else if isDigit c then some (readDigits cs (c.toNat - 48))
    else none

/-- Optional fraction: a point and at least one digit. -/
def parseFrac : CStr → Option (CStr × CStr)
  | [] => some ([], [])
  | c :: cs =>
    if c = '.' then
      match spanDigits cs with
      | ([], _) => none
      | (ds, rest) => some (c :: ds, rest)
    else some ([], c :: cs)

/-- Optional exponent: `e` or `E`, an optional sign, at least one digit. -/
def parseExp : CStr → Option (CStr × CStr)
  | [] => some ([], [])
  | c :: cs =>
    if c = 'e' ∨ c = 'E' then
      match cs with
      | [] => none
      | s :: cs2 =>
        if s = '+' ∨ s = '-' then
          match spanDigits cs2 with
          | ([], _) => none
          | (ds, rest) => some (c :: s :: ds, rest)
        else
          match spanDigits (s :: cs2) with
          | ([], _) => none
          | (ds, rest) => some (c :: ds, rest)
    else some ([], c :: cs)

def parseNumber (cs : CStr) : Option (JSON × CStr) :=
  let signed : Option (Bool × Nat × CStr) :=
    match cs with
    | [] => none
    | c :: cs1 =>
      if c = '-' then (parseNat cs1).map (fun r => (true, r.1, r.2))
      else (parseNat (c :: cs1)).map (fun r => (false, r.1, r.2))
  match signed with
  | none => none
  | some (neg, n, r1) =>
    match parseFrac r1 with
    | none => none
    | some (frac, r2) =>
      match parseExp r2 with
      | none => none
      | some (exp, r3) => some (JSON.num (if neg then -(n : Int) else n) frac exp, r3)

def hexVal (c : Char) : Option Nat :=
  if 48 ≤ c.toNat ∧ c.toNat ≤ 57 then some (c.toNat - 48)
  else if 97 ≤ c.toNat ∧ c.toNat ≤ 102 then some (c.toNat - 87)
  else if 65 ≤ c.toNat ∧ c.toNat ≤ 70 then some (c.toNat - 55)
  else none

/-- The character a two-character escape stands for. -/
def simpleEscape (c : Char) : Option Char :=
  if c = '"' then some '"'
  else if c = '\\' then some '\\'
  else if c = '/' then some '/'
  else if c = 'b' then some (Char.ofNat 8)
  else if c = 'f' then some (Char.ofNat 12)
  else if c = 'n' then some '\n'
  else if c = 'r' then some '\r'
  else if c = 't' then some '\t'
  else none

/-- The code unit of a `\uXXXX` escape. -/
def hex4 (a b c d : Char) : Option Nat :=
  match hexVal a, hexVal b, hexVal c, hexVal d with
  | some w, some x, some y, some z => some (((w * 16 + x) * 16 + y) * 16 + z)
  | _, _, _, _ => none

/-- The UTF-8 bytes of a code point. -/
def utf8Encode (cp : Nat) : CStr :=
  if cp < 128 then [Char.ofNat cp]
  else if cp < 2048 then [Char.ofNat (192 + cp / 64), Char.ofNat (128 + cp % 64)]
  else if cp < 65536 then
    [Char.ofNat (224 + cp / 4096), Char.ofNat (128 + cp / 64 % 64), Char.ofNat (128 + cp % 64)]
  else
    [Char.ofNat (240 + cp / 262144), Char.ofNat (128 + cp / 4096 % 64),
      Char.ofNat (128 + cp / 64 % 64), Char.ofNat (128 + cp % 64)]

/-- Where the decoder stands inside a string. -/
inductive StrState where
  /-- Between characters. -/
  | normal
  /-- After a backslash. -/
  | escape
  /-- Inside the four hex digits of a `\uXXXX` escape: the high surrogate
  that waits for this escape (if any), the digits still to read, the value
  read so far. -/
  | hex (pending : Option Nat) (left : Nat) (acc : Nat)
  /-- After the escape of a high surrogate: a backslash must follow. -/
  | lowSlash (hi : Nat)
  /-- After that backslash: a `u` must follow. -/
  | lowU (hi : Nat)
  /-- Inside a UTF-8 sequence: the continuation bytes still to read, and
  the range the next one must lie in. -/
  | cont (left : Nat) (lo hi : Nat)

/-- What one byte of a string does. -/
inductive StrStep where
  /-- The byte is the closing quote. -/
  | close
  /-- The byte cannot stand here. -/
  | fail
  /-- The byte is taken: the new state and the decoded bytes it yields. -/
  | next (st : StrState) (out : CStr)

/-- The end of a `\uXXXX` escape with code unit `cp`.  A surrogate escape
without its partner has no decoding. -/
def hexDone (pending : Option Nat) (cp : Nat) : StrStep :=
  match pending with
  | some hi =>
    if 56320 ≤ cp ∧ cp ≤ 57343 then
      StrStep.next StrState.normal (utf8Encode (65536 + (hi - 55296) * 1024 + (cp - 56320)))
    else StrStep.fail
  | none =>
    if 55296 ≤ cp ∧ cp ≤ 56319 then StrStep.next (StrState.lowSlash cp) []
    else if 56320 ≤ cp ∧ cp ≤ 57343 then StrStep.fail
    else StrStep.next StrState.normal (utf8Encode cp)

/-- One byte of a string body.  The input is a byte string: a byte below
0x80 stands for itself, control characters below U+0020 may not appear
unescaped, and bytes from 0x80 on must form well-formed UTF-8 sequences (no
overlong forms, no surrogates, nothing above U+10FFFF). -/
def strStep (st : StrState) (c : Char) : StrStep :=
  match st with
  | StrState.normal =>
    if c = '"' then StrStep.close
    else if c = '\\' then StrStep.next StrState.escape []
    else if c.toNat < 32 then StrStep.fail
    else if c.toNat < 128 then StrStep.next StrState.normal [c]
    else if 194 ≤ c.toNat ∧ c.toNat ≤ 223 then StrStep.next (StrState.cont 1 128 191) [c]
    else if c.toNat = 224 then StrStep.next (StrState.cont 2 160 191) [c]
    else if c.toNat = 237 then StrStep.next (StrState.cont 2 128 159) [c]
    else if 225 ≤ c.toNat ∧ c.toNat ≤ 239 then StrStep.next (StrState.cont 2 128 191) [c]
    else if c.toNat = 240 then StrStep.next (StrState.cont 3 144 191) [c]
    else if 241 ≤ c.toNat ∧ c.toNat ≤ 243 then StrStep.next (StrState.cont 3 128 191) [c]
    else if c.toNat = 244 then StrStep.next (StrState.cont 3 128 143) [c]
    else StrStep.fail
  | StrState.escape =>
    if c = 'u' then StrStep.next (StrState.hex none 4 0) []
    else
      match simpleEscape c with
      | some ch => StrStep.next StrState.normal [ch]
      | none => StrStep.fail
  | StrState.hex pending left acc =>
    match left, hexVal c with
    | 0, _ => StrStep.fail
    | _, none => StrStep.fail
    | 1, some v => hexDone pending (acc * 16 + v)
    | k + 1, some v => StrStep.next (StrState.hex pending k (acc * 16 + v)) []
  | StrState.lowSlash hi =>
    if c = '\\' then StrStep.next (StrState.lowU hi) [] else StrStep.fail
  | StrState.lowU hi =>
    if c = 'u' then StrStep.next (StrState.hex (some hi) 4 0) [] else StrStep.fail
  | StrState.cont left lo hi =>
    if lo ≤ c.toNat ∧ c.toNat ≤ hi then
      match left with
      | 0 => StrStep.fail
      | 1 => StrStep.next StrState.normal [c]
      | k + 1 => StrStep.next (StrState.cont k 128 191) [c]
    else StrStep.fail

/-- A string after its opening quote, read from the state `st`: the decoded
text, as UTF-8 bytes, up to the closing quote, and what follows it. -/
def parseStringFrom : StrState → CStr → Option (CStr × CStr)
  | _, [] => none
  | st, c :: cs =>
    match strStep st c with
    | StrStep.close => some ([], cs)
    | StrStep.fail => none
    | StrStep.next st2 out => (parseStringFrom st2 cs).map (fun r => (out ++ r.1, r.2))

/-- A string after its opening quote. -/
def parseStringBody (cs : CStr) : Option (CStr × CStr) := parseStringFrom StrState.normal cs

mutual

/-- One JSON value at the front of the input, and what follows it.  The
first argument bounds the nesting depth plus the number of elements. -/
def parseValue : Nat → CStr → Option (JSON × CStr)
  | 0, _ => none
  | fuel + 1, cs =>
    match cs with
    | 'n' :: 'u' :: 'l' :: 'l' :: rest => some (JSON.null, rest)
    | 't' :: 'r' :: 'u' :: 'e' :: rest => some (JSON.bool true, rest)
    | 'f' :: 'a' :: 'l' :: 's' :: 'e' :: rest => some (JSON.bool false, rest)
    | '"' :: rest => (parseStringBody rest).map (fun r => (JSON.str r.1, r.2))
    | '[' :: rest =>
      match skipWs rest with
      | ']' :: rest2 => some (JSON.arr [], rest2)
      | rest2 => (parseElements fuel rest2).map (fun r => (JSON.arr r.1, r.2))
    | '{' :: rest =>
      match skipWs rest with
      | '}' :: rest2 => some (JSON.obj [], rest2)
      | rest2 => (parseMembers fuel rest2).map (fun r => (JSON.obj r.1, r.2))
    | _ => parseNumber cs

/-- The elements of an array after `[`, up to and including `]`. -/
def parseElements : Nat → CStr → Option (List JSON × CStr)
  | 0, _ => none
  | fuel + 1, cs =>
    match parseValue fuel (skipWs cs) with
    | none => none
    | some (v, rest) =>
      match skipWs rest with
      | ',' :: rest2 => (parseElements fuel rest2).map (fun r => (v :: r.1, r.2))
      | ']' :: rest2 => some ([v], rest2)
      | _ => none

/-- The members of an object after `{`, up to and including `}`. -/
def parseMembers : Nat → CStr → Option (List (CStr × JSON) × CStr)
  | 0, _ => none
  | fuel + 1, cs =>
    match skipWs cs with
    | '"' :: rest =>
      match parseStringBody rest with
      | none => none
      | some (key, rest2) =>
        match skipWs rest2 with
        | ':' :: rest3 =>
          match parseValue fuel (skipWs rest3) with
          | none => none
          | some (v, rest4) =>
            match skipWs rest4 with
            | ',' :: rest5 => (parseMembers fuel rest5).map (fun r => ((key, v) :: r.1, r.2))
            | '}' :: rest5 => some ([(key, v)], rest5)
            | _ => none
        | _ => none
    | _ => none

end

/-- A JSON text: one value, with white space allowed around it and nothing
else after it. -/
def parseJSON (fuel : Nat) (cs : CStr) : Option JSON :=
  match parseValue fuel (skipWs cs) with
  | none => none
  | some (v, rest) => if skipWs rest = [] then some v else none

/-- Decoding of a JSON text.  The bound is twice the length of the text plus
two: a level of nesting takes at least one character and an element at
least two, so a text that has a decoding gets it within this bound. -/
def decodeJSON (cs : CStr) : Option JSON := parseJSON (2 * cs.length + 2) cs

/-! ## Lines and option lists -/

/-- The text is one line: it ends with a line feed and has no other. -/
def isOneLine (s : CStr) : Prop := s.getLast? = some '\n' ∧ s.count '\n' = 1

instance (s : CStr) : Decidable (isOneLine s) := by
  unfold isOneLine
  infer_instance

/-- The argument of the last port option among the values `getopt_long`
returned. -/
def lastPort : List Opt → Option CStr
  | [] => none
  | Opt.p optarg :: rest =>
    match lastPort rest with
    | none => some optarg
    | some q => some q
  | _ :: rest => lastPort rest

/-- The option value is the short or the JSON flag. -/
def isFlag : Opt → Bool
  | Opt.s => true
  | Opt.j => true
  | _ => false

/-- The option value does not end the option loop with a `return`. -/
def continues : Opt → Bool
  | Opt.s => true
  | Opt.j => true
  | Opt.p _ => true
  | _ => false

/-- An ASCII character that a JSON string may hold as it stands: a byte
from 0x20 to 0x7F other than the double quote and the backslash. -/
def plainChar (c : Char) : Prop := c ≠ '"' ∧ c ≠ '\\' ∧ 32 ≤ c.toNat ∧ c.toNat < 128

/-- The argument puts no line feed into the formatted text. -/
def noLineFeed : Arg → Prop
  | Arg.str s => '\n' ∉ s
  | Arg.int _ => True

/-- The texts `main` can write to stdout for a hostname: nothing, the JSON
line with null, or one of the three lines that carry a day count, which is
then a natural number. -/
def stdout_forms (env : Env) (hostname : CStr) (out : CStr) : Prop :=
  out = [] ∨ out = null_line hostname ∨
    ∃ d : Nat, out = days_line hostname d ∨ out = Nat.toDigits 10 d ++ ['\n'] ∨
      out = vformat (env.gettext "Domain: %s | Days until Certification expires: %d\n".toList)
        [Arg.str hostname, Arg.int (d : Int)]

/-- The texts `main` can write to stderr for a hostname: nothing, or one of
its five messages, looked up in the catalogue and formatted; the two that
name a domain get the hostname as their string argument. -/
def stderr_forms (env : Env) (hostname : CStr) (out : CStr) : Prop :=
  out = [] ∨
    out = vformat (env.gettext "Error creating SSL context\n".toList) [] ∨
    out = vformat (env.gettext "Error getting SSL object\n".toList) [] ∨
    out = vformat (env.gettext "Error connecting to %s\n".toList) [Arg.str hostname] ∨
    out = vformat (env.gettext "No certificate found for %s\n".toList) [Arg.str hostname] ∨
    out = vformat (env.gettext "Could not calculate certificate expiration\n".toList) []

/-! ## Lemmas on the time difference -/

theorem gmtime_diff_day_of_le (a b : Int) (h : a ≤ b) :
    (OPENSSL_gmtime_diff a b).1 = (b - a) / 86400 := by
  unfold OPENSSL_gmtime_diff SECS_PER_DAY
  simp only []
  split_ifs <;> simp only [] <;> omega

theorem gmtime_diff_day_of_ge (a b : Int) (h : b ≤ a) :
    (OPENSSL_gmtime_diff a b).1 = -((a - b) / 86400) := by
  unfold OPENSSL_gmtime_diff SECS_PER_DAY
  simp only []
  split_ifs <;> simp only [] <;> omega

theorem days_until_expiration_some (now t : Int) (cert : X509) (h : cert.notAfter = some t) :
    days_until_expiration now cert = (OPENSSL_gmtime_diff now t).1 := by
  simp [days_until_expiration, X509_get0_notAfter, ASN1_TIME_set, ASN1_TIME_diff, h]

/-! ## Lemmas on formatted output -/

theorem vformat_null (h : CStr) :
    vformat "\x7b\"domain\": \"%s\", \"days\": null\x7d\n".toList [Arg.str h] = null_line h := by
  simp [vformat, null_line]

theorem fmt_d_nonneg (d : Int) (h : 0 ≤ d) : fmt_d d = Nat.toDigits 10 d.toNat := by
  obtain ⟨n, rfl⟩ := Int.eq_ofNat_of_zero_le h
  simp [fmt_d]

theorem vformat_days (h : CStr) (d : Int) (hd : 0 ≤ d) :
    vformat "\x7b\"domain\": \"%s\", \"days\": %d\x7d\n".toList [Arg.str h, Arg.int d]
      = days_line h d.toNat := by
  simp [vformat, days_line, fmt_d_nonneg d hd]

theorem vformat_short (d : Int) (hd : 0 ≤ d) :
    vformat "%d\n".toList [Arg.int d] = Nat.toDigits 10 d.toNat ++ ['\n'] := by
  simp [vformat, fmt_d_nonneg d hd]

theorem conn_target_eq (cfg : Config) (h : CStr) :
    conn_target cfg h = (h ++ ':' :: cfg.port).take 511 := by
  simp [conn_target, snprintf, vformat]

/-! ## The branches of `main` -/

theorem main_body_ctx_error (env : Env) (cfg : Config) (h : CStr) (hctx : env.ctx_new = false) :
    main_body env cfg h =
      if cfg.json_output then
        { stdout := null_line h, stderr := [], exit := 1, sni := none, target := none }
      else
        { stdout := [], stderr := vformat (env.gettext "Error creating SSL context\n".toList) [],
          exit := 1, sni := none, target := none } := by
  simp only [main_body, hctx, vformat_null, EXIT_FAILURE, Bool.not_false, if_true]

theorem main_body_ssl_error (env : Env) (cfg : Config) (h : CStr) (hctx : env.ctx_new = true)
    (hssl : env.get_ssl = false) :
    main_body env cfg h =
      if cfg.json_output then
        { stdout := null_line h, stderr := [], exit := 1, sni := none, target := none }
      else
        { stdout := [], stderr := vformat (env.gettext "Error getting SSL object\n".toList) [],
          exit := 1, sni := none, target := none } := by
  simp only [main_body, hctx, hssl, vformat_null, EXIT_FAILURE, Bool.not_false, Bool.not_true,
    if_true, Bool.false_eq_true, if_false]

theorem main_body_connect_error (env : Env) (cfg : Config) (h : CStr) (hctx : env.ctx_new = true)
    (hssl : env.get_ssl = true) (hconn : env.do_connect (conn_target cfg h) h ≤ 0) :
    main_body env cfg h =
      if cfg.json_output then
        { stdout := null_line h, stderr := [], exit := 1,
          sni := SSL_set_tlsext_host_name h, target := some (conn_target cfg h) }
      else
        { stdout := [],
          stderr := vformat (env.gettext "Error connecting to %s\n".toList) [Arg.str h],
          exit := 1, sni := SSL_set_tlsext_host_name h, target := some (conn_target cfg h) } := by
  unfold conn_target at hconn
  simp only [main_body, hctx, hssl, hconn, vformat_null, EXIT_FAILURE, conn_target, Bool.not_true,
    if_true, Bool.false_eq_true, if_false]

theorem main_body_no_cert (env : Env) (cfg : Config) (h : CStr) (hctx : env.ctx_new = true)
    (hssl : env.get_ssl = true) (hconn : 0 < env.do_connect (conn_target cfg h) h)
    (hcert : env.peer_cert (conn_target cfg h) h = none) :
    main_body env cfg h =
      if cfg.json_output then
        { stdout := null_line h, stderr := [], exit := 1,
          sni := SSL_set_tlsext_host_name h, target := some (conn_target cfg h) }
      else
        { stdout := [],
          stderr := vformat (env.gettext "No certificate found for %s\n".toList) [Arg.str h],
          exit := 1, sni := SSL_set_tlsext_host_name h, target := some (conn_target cfg h) } := by
  unfold conn_target at hconn hcert
  simp only [main_body, hctx, hssl, not_le.mpr hconn, hcert, vformat_null, EXIT_FAILURE,
    conn_target, Bool.not_true, if_true, Bool.false_eq_true, if_false]

theorem main_body_negative (env : Env) (cfg : Config) (h : CStr) (cert : X509)
    (hr : reaches_cert env cfg h cert) (hneg : days_until_expiration env.now cert < 0) :
    main_body env cfg h =
      if cfg.json_output then
        { stdout := null_line h, stderr := [], exit := 0,
          sni := SSL_set_tlsext_host_name h, target := some (conn_target cfg h) }
      else
        { stdout := [],
          stderr := vformat (env.gettext "Could not calculate certificate expiration\n".toList) [],
          exit := 0, sni := SSL_set_tlsext_host_name h, target := some (conn_target cfg h) } := by
  obtain ⟨hctx, hssl, hconn, hcert⟩ := hr
  unfold conn_target at hconn hcert
  simp only [main_body, hctx, hssl, not_le.mpr hconn, hcert, hneg, vformat_null, EXIT_SUCCESS,
    conn_target, Bool.not_true, if_true, Bool.false_eq_true, if_false]

theorem main_body_days (env : Env) (cfg : Config) (h : CStr) (cert : X509)
    (hr : reaches_cert env cfg h cert) (hpos : 0 ≤ days_until_expiration env.now cert) :
    main_body env cfg h =
      if cfg.json_output then
        { stdout := days_line h (days_until_expiration env.now cert).toNat, stderr := [], exit := 0,
          sni := SSL_set_tlsext_host_name h, target := some (conn_target cfg h) }
      else if cfg.short_output then
        { stdout := Nat.toDigits 10 (days_until_expiration env.now cert).toNat ++ ['\n'],
          stderr := [], exit := 0, sni := SSL_set_tlsext_host_name h, target := some (conn_target cfg h) }
      else
        { stdout := vformat (env.gettext "Domain: %s | Days until Certification expires: %d\n".toList)
            [Arg.str h, Arg.int (days_until_expiration env.now cert)],
          stderr := [], exit := 0, sni := SSL_set_tlsext_host_name h, target := some (conn_target cfg h) } := by
  obtain ⟨hctx, hssl, hconn, hcert⟩ := hr
  unfold conn_target at hconn hcert
  simp only [main_body, hctx, hssl, not_le.mpr hconn, hcert, not_lt.mpr hpos,
    vformat_days _ _ hpos, vformat_short _ hpos, EXIT_SUCCESS, conn_target, Bool.not_true, if_true,
    Bool.false_eq_true, if_false]

/-! ## Decimal digits: printing and reading back -/

theorem toDigitsCore_acc (fuel : Nat) : ∀ (n : Nat) (ds : List Char),
    Nat.toDigitsCore 10 fuel n ds = Nat.toDigitsCore 10 fuel n [] ++ ds := by
  induction fuel with
  | zero => intro n ds; simp [Nat.toDigitsCore]
  | succ f ih =>
    intro n ds
    simp only [Nat.toDigitsCore]
    split_ifs with h0
    · simp
    · rw [ih (n / 10) (Nat.digitChar (n % 10) :: ds), ih (n / 10) [Nat.digitChar (n % 10)]]
      simp

theorem toDigitsCore_fuel (f : Nat) : ∀ (g n : Nat), n < f → n < g →
    Nat.toDigitsCore 10 f n [] = Nat.toDigitsCore 10 g n [] := by
  induction f with
  | zero => intro g n h; omega
  | succ f ih =>
    intro g n hf hg
    obtain ⟨g, rfl⟩ : ∃ k, g = k + 1 := ⟨g - 1, by omega⟩
    simp only [Nat.toDigitsCore]
    split_ifs with h0
    · rfl
    · rw [toDigitsCore_acc f, toDigitsCore_acc g, ih g (n / 10) (by omega) (by omega)]

theorem toDigits_small (n : Nat) (h : n < 10) : Nat.toDigits 10 n = [Nat.digitChar n] := by
  have h0 : n / 10 = 0 := by omega
  have h1 : n % 10 = n := by omega
  simp [Nat.toDigits, Nat.toDigitsCore, h0, h1]

theorem toDigits_step (n : Nat) (h : 10 ≤ n) :
    Nat.toDigits 10 n = Nat.toDigits 10 (n / 10) ++ [Nat.digitChar (n % 10)] := by
  have h0 : n / 10 ≠ 0 := by omega
  have h1 : Nat.toDigits 10 n = Nat.toDigitsCore 10 n (n / 10) [Nat.digitChar (n % 10)] := by
    simp only [Nat.toDigits, Nat.toDigitsCore, h0, if_false]
  rw [h1, toDigitsCore_acc n, toDigitsCore_fuel n (n / 10 + 1) (n / 10) (by omega) (by omega)]
  rfl

theorem digitChar_isDigit : ∀ d : Nat, d < 10 →
    isDigit (Nat.digitChar d) = true ∧ (Nat.digitChar d).toNat - 48 = d ∧
      (Nat.digitChar d = '0' → d = 0) := by
  decide

theorem isDigit_of_toDigits (n : Nat) : ∀ c ∈ Nat.toDigits 10 n, isDigit c = true := by
  induction n using Nat.strong_induction_on with
  | _ n ih =>
    by_cases h : n < 10
    · rw [toDigits_small n h]
      intro c hc
      simp only [List.mem_singleton] at hc
      rw [hc]
      exact (digitChar_isDigit n h).1
    · rw [toDigits_step n (by omega)]
      intro c hc
      rcases List.mem_append.mp hc with hc | hc
      · exact ih (n / 10) (by omega) c hc
      · simp only [List.mem_singleton] at hc
        rw [hc]
        exact (digitChar_isDigit (n % 10) (by omega)).1

theorem readDigits_append (xs : CStr) : ∀ (ys : CStr) (acc : Nat),
    (∀ c ∈ xs, isDigit c = true) →
      readDigits (xs ++ ys) acc = readDigits ys (readDigits xs acc).1 := by
  induction xs with
  | nil => intro ys acc _; simp [readDigits]
  | cons x xs ih =>
    intro ys acc hx
    have hd : isDigit x = true := hx x (List.mem_cons_self _ _)
    simp only [List.cons_append, readDigits, hd, if_true]
    exact ih ys _ (fun c hc => hx c (List.mem_cons_of_mem _ hc))

theorem readDigits_toDigits (n : Nat) : (readDigits (Nat.toDigits 10 n) 0).1 = n := by
  induction n using Nat.strong_induction_on with
  | _ n ih =>
    by_cases h : n < 10
    · rw [toDigits_small n h]
      simp [readDigits, (digitChar_isDigit n h).1, (digitChar_isDigit n h).2.1]
    · rw [toDigits_step n (by omega), readDigits_append _ _ _ (isDigit_of_toDigits (n / 10)),
        ih (n / 10) (by omega)]
      simp only [readDigits, (digitChar_isDigit (n % 10) (by omega)).1,
        (digitChar_isDigit (n % 10) (by omega)).2.1, if_true]
      omega

/-- The decimal digits of a number start with a digit, which is `0` only for
the number zero. -/
theorem toDigits_head (n : Nat) : ∃ d ds, Nat.toDigits 10 n = d :: ds ∧ isDigit d = true ∧
    (d = '0' → n = 0 ∧ ds = []) := by
  induction n using Nat.strong_induction_on with
  | _ n ih =>
    by_cases h : n < 10
    · refine ⟨Nat.digitChar n, [], toDigits_small n h, (digitChar_isDigit n h).1, fun h0 => ?_⟩
      exact ⟨(digitChar_isDigit n h).2.2 h0, rfl⟩
    · obtain ⟨d, ds, hds, hd, hz⟩ := ih (n / 10) (by omega)
      refine ⟨d, ds ++ [Nat.digitChar (n % 10)], ?_, hd, fun h0 => ?_⟩
      · rw [toDigits_step n (by omega), hds]; rfl
      · have := (hz h0).1
        omega

/-- Reading back what `%d` prints for a natural number, when a character
that is not a digit follows. -/
theorem parseNat_toDigits (n : Nat) (c : Char) (rest : CStr) (hc : isDigit c = false) :
    parseNat (Nat.toDigits 10 n ++ c :: rest) = some (n, c :: rest) := by
  obtain ⟨d, ds, hds, hd, hz⟩ := toDigits_head n
  have hall := isDigit_of_toDigits n
  have hval := readDigits_toDigits n
  have hrd : readDigits (Nat.toDigits 10 n ++ c :: rest) 0 = (n, c :: rest) := by
    rw [readDigits_append _ _ _ hall, hval]
    simp [readDigits, hc]
  rw [hds] at hrd ⊢
  simp only [List.cons_append, parseNat]
  by_cases h0 : d = '0'
  · obtain ⟨hn, hnil⟩ := hz h0
    simp [h0, hn, hnil]
  · simp only [h0, if_false, hd, if_true]
    simp only [List.cons_append, readDigits, hd, if_true, Nat.zero_mul, Nat.zero_add] at hrd
    exact congrArg some hrd

/-! ## Decoding the JSON lines -/

theorem parseStringBody_plain (h : CStr) (rest : CStr) (hp : ∀ c ∈ h, plainChar c) :
    parseStringBody (h ++ '"' :: rest) = some (h, rest) := by
  unfold parseStringBody
  induction h with
  | nil =>
    rw [List.nil_append]
    unfold parseStringFrom
    simp [strStep]
  | cons c cs ih =>
    obtain ⟨h1, h2, h3, h4⟩ := hp c (List.mem_cons_self _ _)
    have ih2 := ih (fun x hx => hp x (List.mem_cons_of_mem _ hx))
    rw [List.cons_append]
    unfold parseStringFrom
    simp only [strStep, h1, h2, if_false, not_lt.mpr h3, h4, if_true, ih2, Option.map_some',
      List.singleton_append]

theorem parseNumber_toDigits (n : Nat) (rest : CStr) :
    parseNumber (Nat.toDigits 10 n ++ '}' :: rest) = some (JSON.num n [] [], '}' :: rest) := by
  have hp := parseNat_toDigits n '}' rest (by decide)
  obtain ⟨d, ds, hds, hd, _⟩ := toDigits_head n
  have hm : d ≠ '-' := by
    intro h
    rw [h] at hd
    exact absurd hd (by decide)
  rw [hds] at hp ⊢
  simp only [List.cons_append] at hp ⊢
  simp [parseNumber, hm, hp, parseFrac, parseExp]

theorem parseValue_toDigits (fuel n : Nat) (rest : CStr) :
    parseValue (fuel + 1) (Nat.toDigits 10 n ++ '}' :: rest)
      = some (JSON.num n [] [], '}' :: rest) := by
  obtain ⟨d, ds, hds, hd, _⟩ := toDigits_head n
  rw [← parseNumber_toDigits n rest, hds]
  simp only [List.cons_append]
  unfold parseValue
  split <;> first | rfl | (exfalso; simp_all [isDigit])

theorem skipWs_of_not_ws (c : Char) (cs : CStr) (h : isWs c = false) :
    skipWs (c :: cs) = c :: cs := by
  simp [skipWs, h]

theorem parseValue_str (fuel : Nat) (h rest : CStr) (hp : ∀ c ∈ h, plainChar c) :
    parseValue (fuel + 1) ('"' :: (h ++ '"' :: rest)) = some (JSON.str h, rest) := by
  unfold parseValue
  simp [parseStringBody_plain h rest hp]

theorem parseValue_null (fuel : Nat) (rest : CStr) :
    parseValue (fuel + 1) ('n' :: 'u' :: 'l' :: 'l' :: rest) = some (JSON.null, rest) := by
  unfold parseValue
  simp

theorem parseValue_obj (fuel : Nat) (rest : CStr) :
    parseValue (fuel + 1) ('{' :: '"' :: rest)
      = (parseMembers fuel ('"' :: rest)).map (fun r => (JSON.obj r.1, r.2)) := by
  unfold parseValue
  simp [skipWs, isWs]

theorem parseMembers_more (fuel : Nat) (key rest rest2 : CStr) (v : JSON)
    (hk : ∀ c ∈ key, plainChar c)
    (hv : parseValue fuel rest = some (v, ',' :: rest2)) (hr : skipWs rest = rest) :
    parseMembers (fuel + 1) ('"' :: (key ++ '"' :: ':' :: ' ' :: rest))
      = (parseMembers fuel rest2).map (fun r => ((key, v) :: r.1, r.2)) := by
  conv_lhs => unfold parseMembers
  simp [skipWs, isWs, parseStringBody_plain key _ hk, hv, hr]

theorem parseMembers_last (fuel : Nat) (key rest rest2 : CStr) (v : JSON)
    (hk : ∀ c ∈ key, plainChar c)
    (hv : parseValue fuel rest = some (v, '}' :: rest2)) (hr : skipWs rest = rest) :
    parseMembers (fuel + 1) (' ' :: '"' :: (key ++ '"' :: ':' :: ' ' :: rest))
      = some ([(key, v)], rest2) := by
  unfold parseMembers
  simp [skipWs, isWs, parseStringBody_plain key _ hk, hv, hr]

theorem plain_domain : ∀ c ∈ "domain".toList, plainChar c := by
  simp [plainChar]

theorem plain_days : ∀ c ∈ "days".toList, plainChar c := by
  simp [plainChar]

/-- Decoding a line of the shape the program prints, for any text `value`
of the day count that decodes to `v`. -/
theorem parseJSON_line (fuel : Nat) (h value : CStr) (v : JSON) (hp : ∀ c ∈ h, plainChar c)
    (hv : parseValue (fuel + 1) (value ++ '}' :: ['\n']) = some (v, '}' :: ['\n']))
    (hr : skipWs (value ++ '}' :: ['\n']) = value ++ '}' :: ['\n']) :
    parseJSON (fuel + 4)
        ("\x7b\"domain\": \"".toList ++ h ++ "\", \"days\": ".toList ++ value ++ "\x7d\n".toList)
      = some (JSON.obj [("domain".toList, JSON.str h), ("days".toList, v)]) := by
  have e : "\x7b\"domain\": \"".toList ++ h ++ "\", \"days\": ".toList ++ value ++ "\x7d\n".toList
      = '{' :: '"' :: ("domain".toList ++ '"' :: ':' :: ' ' :: '"' ::
          (h ++ '"' :: ',' :: ' ' :: '"' :: ("days".toList ++ '"' :: ':' :: ' ' ::
            (value ++ '}' :: ['\n'])))) := by
    simp
  rw [e]
  have h1 := parseMembers_last (fuel + 1) "days".toList _ _ v plain_days hv hr
  have h2 := parseMembers_more (fuel + 2) "domain".toList
    ('"' :: (h ++ '"' :: ',' :: ' ' :: '"' :: ("days".toList ++ '"' :: ':' :: ' ' ::
      (value ++ '}' :: ['\n']))))
    (' ' :: '"' :: ("days".toList ++ '"' :: ':' :: ' ' :: (value ++ '}' :: ['\n'])))
    (JSON.str h) plain_domain
    (parseValue_str (fuel + 1) h _ hp) (skipWs_of_not_ws _ _ (by decide))
  unfold parseJSON
  rw [skipWs_of_not_ws _ _ (by decide), parseValue_obj, h2, h1]
  simp [skipWs, isWs]


/-! ## Lines of formatted output -/

theorem fmt_d_no_line_feed (n : Int) : '\n' ∉ fmt_d n := by
  have hd : '\n' ∉ Nat.toDigits 10 n.natAbs := by
    intro hmem
    exact absurd (isDigit_of_toDigits _ _ hmem) (by decide)
  unfold fmt_d
  split_ifs
  · intro hmem
    rcases List.mem_cons.mp hmem with h | h
    · exact absurd h (by decide)
    · exact hd h
  · exact hd

theorem vformat_count (f : CStr) (args : List Arg) (ha : ∀ a ∈ args, noLineFeed a) :
    (vformat f args).count '\n' = f.count '\n' := by
  induction f, args using vformat.induct with
  | case1 args => simp [vformat]
  | case2 rest s args ih =>
    have hs : '\n' ∉ s := ha (Arg.str s) (List.mem_cons_self _ _)
    rw [vformat, List.count_append, ih (fun a h => ha a (List.mem_cons_of_mem _ h)),
      List.count_eq_zero_of_not_mem hs]
    simp
  | case3 rest n args ih =>
    rw [vformat, List.count_append, ih (fun a h => ha a (List.mem_cons_of_mem _ h)),
      List.count_eq_zero_of_not_mem (fmt_d_no_line_feed n)]
    simp
  | case4 rest args ih =>
    rw [vformat, List.count_cons, ih ha]
    simp
  | case5 c rest args h1 h2 h3 ih =>
    rw [vformat, List.count_cons, ih ha, List.count_cons]
    · exact h3
    · exact h1
    · exact h2

theorem getLast_cons_of_some (c : Char) (xs : CStr) (x : Char) (h : xs.getLast? = some x) :
    (c :: xs).getLast? = some x := by
  cases xs with
  | nil => simp at h
  | cons y ys => rw [List.getLast?_cons_cons]; exact h

theorem getLast_append_of_some (s xs : CStr) (x : Char) (h : xs.getLast? = some x) :
    (s ++ xs).getLast? = some x := by
  induction s with
  | nil => exact h
  | cons c cs ih => exact getLast_cons_of_some c _ x ih

theorem getLast_tail (c : Char) (xs : CStr) (h : (c :: xs).getLast? = some '\n') (hc : c ≠ '\n') :
    xs.getLast? = some '\n' := by
  cases xs with
  | nil => simp at h; exact absurd h hc
  | cons y ys => rw [List.getLast?_cons_cons] at h; exact h

theorem vformat_getLast (f : CStr) (args : List Arg) (hf : f.getLast? = some '\n') :
    (vformat f args).getLast? = some '\n' := by
  induction f, args using vformat.induct with
  | case1 args => simp at hf
  | case2 rest s args ih =>
    rw [vformat]
    exact getLast_append_of_some _ _ _
      (ih (getLast_tail _ _ (getLast_tail _ _ hf (by decide)) (by decide)))
  | case3 rest n args ih =>
    rw [vformat]
    exact getLast_append_of_some _ _ _
      (ih (getLast_tail _ _ (getLast_tail _ _ hf (by decide)) (by decide)))
  | case4 rest args ih =>
    rw [vformat]
    exact getLast_cons_of_some _ _ _
      (ih (getLast_tail _ _ (getLast_tail _ _ hf (by decide)) (by decide)))
  | case5 c rest args h1 h2 h3 ih =>
    rw [vformat]
    · cases rest with
      | nil =>
        rw [vformat]
        exact hf
      | cons y ys =>
        rw [List.getLast?_cons_cons] at hf
        exact getLast_cons_of_some _ _ _ (ih hf)
    · exact h3
    · exact h1
    · exact h2

theorem vformat_isOneLine (f : CStr) (args : List Arg) (hf : isOneLine f)
    (ha : ∀ a ∈ args, noLineFeed a) : isOneLine (vformat f args) :=
  ⟨vformat_getLast f args hf.1, (vformat_count f args ha).trans hf.2⟩

/-! ## Every run takes one of the branches -/

/-- Without success the run is one of the five failure branches: stdout
holds the null line in JSON mode and nothing otherwise, stderr holds one
formatted message outside JSON mode and nothing in it. -/
theorem main_body_failure (env : Env) (cfg : Config) (h : CStr) (hf : ¬ succeeds env cfg h) :
    (main_body env cfg h).stdout = (if cfg.json_output then null_line h else []) ∧
      ∃ (msg : CStr) (args : List Arg), isOneLine msg ∧ (∀ a ∈ args, a = Arg.str h) ∧
        (main_body env cfg h).stderr
          = (if cfg.json_output then [] else vformat (env.gettext msg) args) := by
  by_cases hctx : env.ctx_new = true
  · by_cases hssl : env.get_ssl = true
    · by_cases hconn : env.do_connect (conn_target cfg h) h ≤ 0
      · rw [main_body_connect_error env cfg h hctx hssl hconn]
        refine ⟨by split_ifs <;> rfl, "Error connecting to %s\n".toList, [Arg.str h],
          by decide, by simp, by split_ifs <;> rfl⟩
      · cases hcert : env.peer_cert (conn_target cfg h) h with
        | none =>
          rw [main_body_no_cert env cfg h hctx hssl (not_le.mp hconn) hcert]
          refine ⟨by split_ifs <;> rfl, "No certificate found for %s\n".toList, [Arg.str h],
            by decide, by simp, by split_ifs <;> rfl⟩
        | some cert =>
          have hr : reaches_cert env cfg h cert := ⟨hctx, hssl, not_le.mp hconn, hcert⟩
          have hneg : days_until_expiration env.now cert < 0 := by
            by_contra hge
            exact hf ⟨cert, hr, not_lt.mp hge⟩
          rw [main_body_negative env cfg h cert hr hneg]
          refine ⟨by split_ifs <;> rfl, "Could not calculate certificate expiration\n".toList, [],
            by decide, by simp, by split_ifs <;> rfl⟩
    · rw [main_body_ssl_error env cfg h hctx (by simpa using hssl)]
      refine ⟨by split_ifs <;> rfl, "Error getting SSL object\n".toList, [],
        by decide, by simp, by split_ifs <;> rfl⟩
  · rw [main_body_ctx_error env cfg h (by simpa using hctx)]
    refine ⟨by split_ifs <;> rfl, "Error creating SSL context\n".toList, [],
      by decide, by simp, by split_ifs <;> rfl⟩

/-- Whatever the run, stdout holds one of the texts of `stdout_forms`. -/
theorem main_body_stdout_forms (env : Env) (cfg : Config) (h : CStr) :
    stdout_forms env h (main_body env cfg h).stdout := by
  by_cases hs : succeeds env cfg h
  · obtain ⟨cert, hr, hpos⟩ := hs
    obtain ⟨n, hn⟩ := Int.eq_ofNat_of_zero_le hpos
    rw [main_body_days env cfg h cert hr hpos, hn]
    refine Or.inr (Or.inr ⟨n, ?_⟩)
    split_ifs
    · exact Or.inl rfl
    · exact Or.inr (Or.inl rfl)
    · exact Or.inr (Or.inr rfl)
  · rw [(main_body_failure env cfg h hs).1]
    split_ifs
    · exact Or.inr (Or.inl rfl)
    · exact Or.inl rfl

/-! ## The day count -/

/-- C1: when the handshake yields a certificate whose `notAfter` is a valid
instant `t` at or after the clock reading, `days_until_expiration` returns
`(t - now) / 86400`, the number of whole 24-hour periods in the difference
with the remainder below a day dropped; this number is not negative, and it
is the number that `main` prints in each of the three display modes. -/
theorem days_is_truncated_difference (env : Env) (cfg : Config) (h : CStr) (cert : X509) (t : Int)
    (hr : reaches_cert env cfg h cert) (hna : cert.notAfter = some t) (hle : env.now ≤ t) :
    days_until_expiration env.now cert = (t - env.now) / 86400 ∧
      0 ≤ (t - env.now) / 86400 ∧
      86400 * ((t - env.now) / 86400) ≤ t - env.now ∧
      t - env.now < 86400 * ((t - env.now) / 86400) + 86400 ∧
      (main_body env cfg h).stdout =
        (if cfg.json_output then days_line h ((t - env.now) / 86400).toNat
         else if cfg.short_output then Nat.toDigits 10 ((t - env.now) / 86400).toNat ++ ['\n']
         else vformat (env.gettext "Domain: %s | Days until Certification expires: %d\n".toList)
           [Arg.str h, Arg.int ((t - env.now) / 86400)]) := by
  have hd : days_until_expiration env.now cert = (t - env.now) / 86400 := by
    rw [days_until_expiration_some env.now t cert hna, gmtime_diff_day_of_le env.now t hle]
  have hpos : 0 ≤ (t - env.now) / 86400 := by omega
  refine ⟨hd, hpos, by omega, by omega, ?_⟩
  rw [main_body_days env cfg h cert hr (hd ▸ hpos), hd]
  split_ifs <;> rfl

theorem days_is_truncated_difference_witness :
    reaches_cert (sample_env 1000 (some 200000)) init_config "a".toList { notAfter := some 200000 } ∧
      (1000 : Int) ≤ 200000 ∧
      days_until_expiration 1000 { notAfter := some 200000 } = 2 ∧
      (main_body (sample_env 1000 (some 200000)) init_config "a".toList).stdout
        = "Domain: a | Days until Certification expires: 2\n".toList :=
  have hr : reaches_cert (sample_env 1000 (some 200000)) init_config "a".toList
      { notAfter := some 200000 } := ⟨rfl, rfl, by decide, rfl⟩
  have w := days_is_truncated_difference (sample_env 1000 (some 200000)) init_config "a".toList
    { notAfter := some 200000 } 200000 hr rfl (by decide)
  ⟨hr, by decide, w.1.trans (by decide), w.2.2.2.2.trans (by decide)⟩

/-- C2 (as amended): when `notAfter` is a valid instant before the clock
reading, then (1) if it lies at least 86400 seconds back, the day count is
negative and no day count is printed: stdout is empty in plain and short
mode and holds the line with `null` in JSON mode; (2) if it lies less than
86400 seconds back, the day count is 0 and the run prints it like any other
day count; (3) in both cases stdout never holds a negative number: it is
empty, the null line, or a line whose day count is a natural number. -/
theorem expired_certificate_output (env : Env) (cfg : Config) (h : CStr) (cert : X509) (t : Int)
    (hr : reaches_cert env cfg h cert) (hna : cert.notAfter = some t) (hlt : t < env.now) :
    (t + 86400 ≤ env.now →
        days_until_expiration env.now cert < 0 ∧
        (main_body env cfg h).stdout = (if cfg.json_output then null_line h else [])) ∧
      (env.now < t + 86400 →
        days_until_expiration env.now cert = 0 ∧
        (main_body env cfg h).stdout =
          (if cfg.json_output then days_line h 0
           else if cfg.short_output then "0\n".toList
           else vformat (env.gettext "Domain: %s | Days until Certification expires: %d\n".toList)
             [Arg.str h, Arg.int 0])) ∧
      stdout_forms env h (main_body env cfg h).stdout := by
  have hd : days_until_expiration env.now cert = -((env.now - t) / 86400) := by
    rw [days_until_expiration_some env.now t cert hna,
      gmtime_diff_day_of_ge env.now t (le_of_lt hlt)]
  refine ⟨fun hfar => ?_, fun hnear => ?_, main_body_stdout_forms env cfg h⟩
  · have hneg : days_until_expiration env.now cert < 0 := by rw [hd]; omega
    refine ⟨hneg, ?_⟩
    rw [main_body_negative env cfg h cert hr hneg]
    split_ifs <;> rfl
  · have hz : days_until_expiration env.now cert = 0 := by rw [hd]; omega
    refine ⟨hz, ?_⟩
    rw [main_body_days env cfg h cert hr (by rw [hz]), hz]
    split_ifs <;> rfl

theorem expired_certificate_output_witness :
    reaches_cert (sample_env 200000 (some 1000)) init_config "a".toList { notAfter := some 1000 } ∧
      (1000 : Int) < 200000 ∧ (1000 : Int) + 86400 ≤ 200000 ∧
      days_until_expiration 200000 { notAfter := some 1000 } < 0 ∧
      (main_body (sample_env 200000 (some 1000)) init_config "a".toList).stdout = [] :=
  have hr : reaches_cert (sample_env 200000 (some 1000)) init_config "a".toList
      { notAfter := some 1000 } := ⟨rfl, rfl, by decide, rfl⟩
  have w := (expired_certificate_output (sample_env 200000 (some 1000)) init_config "a".toList
    { notAfter := some 1000 } 1000 hr rfl (by decide)).1 (by decide)
  ⟨hr, by decide, by decide, w.1, w.2.trans (by decide)⟩

/-- C2 (as stated) fails: a certificate whose `notAfter` lies one second
before the clock reading gives the day count 0, and the run prints it: `0`
in short mode, and `"days": 0` instead of `null` in JSON mode. -/
theorem expired_one_second_prints_zero :
    (0 : Int) < 1 ∧
      (main_body (sample_env 1 (some 0))
        { short_output := true, json_output := false, port := "443".toList } "a".toList).stdout
        = "0\n".toList ∧
      (main_body (sample_env 1 (some 0))
        { short_output := false, json_output := true, port := "443".toList } "a".toList).stdout
        = "\x7b\"domain\": \"a\", \"days\": 0\x7d\n".toList := by
  decide

/-- C3: the code at a certificate whose `notAfter` is not a valid instant:
`ASN1_TIME_diff` fails and leaves `days` at its initial 0, so the run
prints the day count 0 in every mode and exits with status 0, where the
claim has `null` and no day count. -/
theorem invalid_notAfter_prints_zero :
    days_until_expiration 1000 { notAfter := none } = 0 ∧
      (main_body (sample_env 1000 none)
        { short_output := false, json_output := true, port := "443".toList } "a".toList).stdout
        = "\x7b\"domain\": \"a\", \"days\": 0\x7d\n".toList ∧
      (main_body (sample_env 1000 none)
        { short_output := true, json_output := false, port := "443".toList } "a".toList).stdout
        = "0\n".toList ∧
      (main_body (sample_env 1000 none) init_config "a".toList).stdout
        = "Domain: a | Days until Certification expires: 0\n".toList ∧
      (main_body (sample_env 1000 none) init_config "a".toList).exit = 0 := by
  decide

/-! ## Connection failure, exit status, short mode -/

/-- C4: when the context and the session object exist and `BIO_do_connect`
returns a value that is not positive, then in JSON mode stdout is exactly
the line with the hostname and `null` followed by a line feed, outside JSON
mode (plain and short) nothing is written to stdout, and in every mode the
exit status is not zero. -/
theorem connect_failure_output (env : Env) (cfg : Config) (h : CStr)
    (hctx : env.ctx_new = true) (hssl : env.get_ssl = true)
    (hconn : env.do_connect (conn_target cfg h) h ≤ 0) :
    (cfg.json_output = true → (main_body env cfg h).stdout
        = "\x7b\"domain\": \"".toList ++ h ++ "\", \"days\": null\x7d\n".toList) ∧
      (cfg.json_output = false → (main_body env cfg h).stdout = []) ∧
      (main_body env cfg h).exit ≠ 0 := by
  rw [main_body_connect_error env cfg h hctx hssl hconn]
  refine ⟨fun hj => ?_, fun hj => ?_, ?_⟩
  · rw [if_pos hj]; rfl
  · rw [if_neg (by simp [hj])]
  · split_ifs <;> exact one_ne_zero

theorem connect_failure_output_witness :
    refusing_env.do_connect (conn_target init_config "a".toList) "a".toList ≤ 0 ∧
      (main_body refusing_env
        { short_output := false, json_output := true, port := "443".toList } "a".toList).stdout
        = "\x7b\"domain\": \"a\", \"days\": null\x7d\n".toList ∧
      (main_body refusing_env init_config "a".toList).stdout = [] ∧
      (main_body refusing_env init_config "a".toList).exit ≠ 0 :=
  have w := connect_failure_output refusing_env init_config "a".toList rfl rfl (by decide)
  have wj := connect_failure_output refusing_env
    { short_output := false, json_output := true, port := "443".toList } "a".toList rfl rfl
    (by decide)
  ⟨by decide, (wj.1 rfl).trans (by decide), w.2.1 rfl, w.2.2⟩

/-- C6: the code at a certificate that expired two days before the clock
reading: the day count is negative, the run reports no day count (the null
line in JSON mode, a message on stderr otherwise), and the exit status is
0, where the claim has a status that is not zero. -/
theorem negative_days_exit_zero :
    days_until_expiration 172800 { notAfter := some 0 } = -2 ∧
      (main_body (sample_env 172800 (some 0))
        { short_output := false, json_output := true, port := "443".toList } "a".toList).stdout
        = "\x7b\"domain\": \"a\", \"days\": null\x7d\n".toList ∧
      (main_body (sample_env 172800 (some 0))
        { short_output := false, json_output := true, port := "443".toList } "a".toList).exit = 0 ∧
      (main_body (sample_env 172800 (some 0)) init_config "a".toList).stdout = [] ∧
      (main_body (sample_env 172800 (some 0)) init_config "a".toList).stderr
        = "Could not calculate certificate expiration\n".toList ∧
      (main_body (sample_env 172800 (some 0)) init_config "a".toList).exit = 0 ∧
      (main_body refusing_env init_config "a".toList).exit = 1 := by
  decide

/-- C8: in short mode (short flag set, JSON flag not set), a run that
reaches the certificate with a day count that is not negative writes to
stdout exactly the decimal digits of the day count and one line feed; a run
that fails on any branch writes nothing to stdout. -/
theorem short_mode_stdout (env : Env) (cfg : Config) (h : CStr)
    (hs : cfg.short_output = true) (hj : cfg.json_output = false) :
    (∀ cert, reaches_cert env cfg h cert → 0 ≤ days_until_expiration env.now cert →
        (main_body env cfg h).stdout
          = Nat.toDigits 10 (days_until_expiration env.now cert).toNat ++ ['\n']) ∧
      (¬ succeeds env cfg h → (main_body env cfg h).stdout = []) := by
  refine ⟨fun cert hr hpos => ?_, fun hf => ?_⟩
  · rw [main_body_days env cfg h cert hr hpos, if_neg (by simp [hj]), if_pos hs]
  · rw [(main_body_failure env cfg h hf).1, if_neg (by simp [hj])]

theorem short_mode_stdout_witness :
    (main_body (sample_env 1000 (some 200000))
        { short_output := true, json_output := false, port := "443".toList } "a".toList).stdout
        = "2\n".toList :=
  ((short_mode_stdout (sample_env 1000 (some 200000))
      { short_output := true, json_output := false, port := "443".toList } "a".toList rfl rfl).1
    { notAfter := some 200000 } ⟨rfl, rfl, by decide, rfl⟩ (by decide)).trans (by decide)

/-! ## The JSON line -/

theorem isWs_of_isDigit (c : Char) (h : isDigit c = true) : isWs c = false := by
  by_contra hw
  have hw2 : isWs c = true := by simpa using hw
  simp only [isWs, Bool.or_eq_true, decide_eq_true_eq] at hw2
  rcases hw2 with ((h1 | h1) | h1) | h1 <;> rw [h1] at h <;> exact absurd h (by decide)

theorem parseJSON_null_line (fuel : Nat) (h : CStr) (hp : ∀ c ∈ h, plainChar c) :
    parseJSON (fuel + 4) (null_line h)
      = some (JSON.obj [("domain".toList, JSON.str h), ("days".toList, JSON.null)]) := by
  have e : null_line h
      = "\x7b\"domain\": \"".toList ++ h ++ "\", \"days\": ".toList ++ "null".toList
        ++ "\x7d\n".toList := by
    simp [null_line]
  rw [e]
  exact parseJSON_line fuel h "null".toList JSON.null hp (parseValue_null fuel _) (by decide)

theorem parseJSON_days_line (fuel : Nat) (h : CStr) (n : Nat) (hp : ∀ c ∈ h, plainChar c) :
    parseJSON (fuel + 4) (days_line h n)
      = some (JSON.obj [("domain".toList, JSON.str h), ("days".toList, JSON.num n [] [])]) := by
  refine parseJSON_line fuel h (Nat.toDigits 10 n) (JSON.num n [] []) hp
    (parseValue_toDigits fuel n _) ?_
  obtain ⟨d, ds, hds, hd, _⟩ := toDigits_head n
  rw [hds]
  exact skipWs_of_not_ws d _ (isWs_of_isDigit d hd)

/-- C5 (as amended): in JSON mode, for a hostname made of ASCII bytes (below
0x80) that holds no double quote, no backslash and no control character
below U+0020, and for every outcome of the run, the text on stdout decodes
as a JSON document: an object with the two members `domain` and `days` in
this order, where `domain` is the hostname as given and `days` is `null` or
a natural number. -/
theorem json_line_decodes (env : Env) (cfg : Config) (h : CStr)
    (hj : cfg.json_output = true) (hp : ∀ c ∈ h, plainChar c) :
    ∃ v : JSON, (v = JSON.null ∨ ∃ n : Nat, v = JSON.num (n : Int) [] []) ∧
      decodeJSON (main_body env cfg h).stdout
        = some (JSON.obj [("domain".toList, JSON.str h), ("days".toList, v)]) ∧
      ∀ fuel, 4 ≤ fuel → parseJSON fuel (main_body env cfg h).stdout
        = some (JSON.obj [("domain".toList, JSON.str h), ("days".toList, v)]) := by
  have key : ∃ v : JSON, (v = JSON.null ∨ ∃ n : Nat, v = JSON.num (n : Int) [] []) ∧
      (main_body env cfg h).stdout ≠ [] ∧
      ∀ fuel, parseJSON (fuel + 4) (main_body env cfg h).stdout
        = some (JSON.obj [("domain".toList, JSON.str h), ("days".toList, v)]) := by
    by_cases hs : succeeds env cfg h
    · obtain ⟨cert, hr, hpos⟩ := hs
      rw [main_body_days env cfg h cert hr hpos, if_pos hj]
      exact ⟨JSON.num ((days_until_expiration env.now cert).toNat : Int) [] [],
        Or.inr ⟨_, rfl⟩, by simp [days_line], fun fuel => parseJSON_days_line fuel h _ hp⟩
    · rw [(main_body_failure env cfg h hs).1, if_pos hj]
      exact ⟨JSON.null, Or.inl rfl, by simp [null_line], fun fuel => parseJSON_null_line fuel h hp⟩
  obtain ⟨v, hv, hne, hparse⟩ := key
  refine ⟨v, hv, ?_, fun fuel hf => ?_⟩
  · have hlen : 0 < (main_body env cfg h).stdout.length := List.length_pos.mpr hne
    obtain ⟨k, hk⟩ : ∃ k, 2 * (main_body env cfg h).stdout.length + 2 = k + 4 :=
      ⟨2 * (main_body env cfg h).stdout.length - 2, by omega⟩
    unfold decodeJSON
    rw [hk]
    exact hparse k
  · obtain ⟨k, rfl⟩ : ∃ k, fuel = k + 4 := ⟨fuel - 4, by omega⟩
    exact hparse k

theorem json_line_decodes_witness :
    (∀ c ∈ "example.com".toList, plainChar c) ∧
      (∃ v : JSON, (v = JSON.null ∨ ∃ n : Nat, v = JSON.num (n : Int) [] []) ∧
        decodeJSON (main_body (sample_env 1000 (some 200000))
            { short_output := false, json_output := true, port := "443".toList }
            "example.com".toList).stdout
          = some (JSON.obj [("domain".toList, JSON.str "example.com".toList), ("days".toList, v)]) ∧
        ∀ fuel, 4 ≤ fuel → parseJSON fuel (main_body (sample_env 1000 (some 200000))
            { short_output := false, json_output := true, port := "443".toList }
            "example.com".toList).stdout
          = some (JSON.obj [("domain".toList, JSON.str "example.com".toList), ("days".toList, v)])) ∧
      decodeJSON (main_body (sample_env 1000 (some 200000))
          { short_output := false, json_output := true, port := "443".toList }
          "example.com".toList).stdout
        = some (JSON.obj [("domain".toList, JSON.str "example.com".toList),
            ("days".toList, JSON.num 2 [] [])]) :=
  have hp : ∀ c ∈ "example.com".toList, plainChar c := by simp [plainChar]
  ⟨hp, json_line_decodes (sample_env 1000 (some 200000))
    { short_output := false, json_output := true, port := "443".toList }
    "example.com".toList rfl hp, by rfl⟩

/-- C5 (as stated) fails: for the hostname that is one double quote, the
line printed in JSON mode after a refused connection has no decoding as
JSON, whatever the bound given to the decoder.  (Nor has the line for the
hostname that is the one byte 0xFF, which is not UTF-8.) -/
theorem json_line_invalid_for_quote :
    (main refusing_env [Opt.j] [['"']]).stdout
        = "\x7b\"domain\": \"\"\", \"days\": null\x7d\n".toList ∧
      decodeJSON (main refusing_env [Opt.j] [['"']]).stdout = none ∧
      decodeJSON (main refusing_env [Opt.j] [[Char.ofNat 255]]).stdout = none ∧
      ∀ fuel, parseJSON fuel (main refusing_env [Opt.j] [['"']]).stdout = none := by
  refine ⟨by decide, by rfl, by rfl, fun fuel => ?_⟩
  have e : (main refusing_env [Opt.j] [['"']]).stdout
      = "\x7b\"domain\": \"\"\", \"days\": null\x7d\n".toList := by decide
  rw [e]
  rcases fuel with _ | _ | _ | f <;> rfl

/-! ## One outcome line -/

/-- C7 (as amended): for a hostname that holds no line feed, and a message
catalogue that gives a one-line text for every one-line message, each run
writes exactly one line in total: a successful run one line on stdout and
nothing on stderr; a failed run in JSON mode one line on stdout and nothing
on stderr; a failed run outside JSON mode nothing on stdout and one line on
stderr. -/
theorem one_outcome_line (env : Env) (cfg : Config) (h : CStr) (hh : '\n' ∉ h)
    (htr : ∀ m, isOneLine m → isOneLine (env.gettext m)) :
    (succeeds env cfg h →
        isOneLine (main_body env cfg h).stdout ∧ (main_body env cfg h).stderr = []) ∧
      (¬ succeeds env cfg h → cfg.json_output = true →
        isOneLine (main_body env cfg h).stdout ∧ (main_body env cfg h).stderr = []) ∧
      (¬ succeeds env cfg h → cfg.json_output = false →
        (main_body env cfg h).stdout = [] ∧ isOneLine (main_body env cfg h).stderr) := by
  have hargs : ∀ d : Int, ∀ a ∈ [Arg.str h, Arg.int d], noLineFeed a := by
    intro d a ha
    rcases List.mem_cons.mp ha with rfl | ha
    · exact hh
    · rw [List.mem_singleton.mp ha]; trivial
  refine ⟨fun hs => ?_, fun hf hj => ?_, fun hf hj => ?_⟩
  · obtain ⟨cert, hr, hpos⟩ := hs
    rw [main_body_days env cfg h cert hr hpos]
    split_ifs
    · refine ⟨?_, rfl⟩
      show isOneLine (days_line h _)
      rw [← vformat_days h _ hpos]
      exact vformat_isOneLine _ _ (by decide) (hargs _)
    · refine ⟨?_, rfl⟩
      show isOneLine (Nat.toDigits 10 _ ++ ['\n'])
      rw [← vformat_short _ hpos]
      exact vformat_isOneLine _ _ (by decide) (fun a ha => by
        rw [List.mem_singleton.mp ha]; trivial)
    · exact ⟨vformat_isOneLine _ _ (htr _ (by decide)) (hargs _), rfl⟩
  · obtain ⟨hout, msg, args, hmsg, ha, herr⟩ := main_body_failure env cfg h hf
    rw [hout, herr, if_pos hj, if_pos hj]
    refine ⟨?_, rfl⟩
    rw [← vformat_null h]
    exact vformat_isOneLine _ _ (by decide) (fun a ha2 => by
      rw [List.mem_singleton.mp ha2]; exact hh)
  · obtain ⟨hout, msg, args, hmsg, ha, herr⟩ := main_body_failure env cfg h hf
    rw [hout, herr, if_neg (by simp [hj]), if_neg (by simp [hj])]
    refine ⟨rfl, vformat_isOneLine _ _ (htr msg hmsg) (fun a ha2 => ?_)⟩
    rw [ha a ha2]
    exact hh

theorem one_outcome_line_witness :
    '\n' ∉ "a".toList ∧
      isOneLine (main_body (sample_env 1000 (some 200000)) init_config "a".toList).stdout ∧
      (main_body (sample_env 1000 (some 200000)) init_config "a".toList).stderr = [] :=
  ⟨by decide,
    (one_outcome_line (sample_env 1000 (some 200000)) init_config "a".toList (by decide)
      (fun _ hm => hm)).1 ⟨{ notAfter := some 200000 }, ⟨rfl, rfl, by decide, rfl⟩, by decide⟩⟩

/-- C7 (as stated) fails: for a hostname that holds a line feed, a refused
connection in JSON mode puts two lines on stdout, and outside JSON mode two
lines on stderr. -/
theorem two_lines_for_line_feed_hostname :
    (main refusing_env [Opt.j] ["a\nb".toList]).stdout
        = "\x7b\"domain\": \"a\nb\", \"days\": null\x7d\n".toList ∧
      ((main refusing_env [Opt.j] ["a\nb".toList]).stdout).count '\n' = 2 ∧
      ¬ isOneLine (main refusing_env [Opt.j] ["a\nb".toList]).stdout ∧
      (main refusing_env [] ["a\nb".toList]).stderr = "Error connecting to a\nb\n".toList ∧
      ¬ isOneLine (main refusing_env [] ["a\nb".toList]).stderr := by
  decide

/-! ## The port option -/

theorem snprintf_port (optarg : CStr) : snprintf 6 "%s".toList [Arg.str optarg] = optarg.take 5 := by
  simp [snprintf, vformat]

/-- The port after the option loop, when the loop ends without a `return`. -/
theorem option_loop_port (env : Env) (opts : List Opt) : ∀ (cfg cfg2 : Config),
    option_loop env opts cfg = Except.ok cfg2 →
      cfg2.port = (match lastPort opts with
        | none => cfg.port
        | some tok => tok.take 5) := by
  induction opts with
  | nil =>
    intro cfg cfg2 h
    simp only [option_loop, Except.ok.injEq] at h
    simp [lastPort, h]
  | cons o rest ih =>
    intro cfg cfg2 h
    cases o with
    | s =>
      simp only [option_loop] at h
      simpa [lastPort] using ih _ _ h
    | j =>
      simp only [option_loop] at h
      simpa [lastPort] using ih _ _ h
    | p optarg =>
      simp only [option_loop] at h
      have := ih _ _ h
      rw [this]
      simp only [lastPort]
      cases lastPort rest <;> simp only [snprintf_port]
    | h => simp [option_loop] at h
    | v => simp [option_loop] at h
    | other d => simp [option_loop] at h

/-- Option values that do not return leave the loop with a configuration. -/
theorem option_loop_continues (env : Env) (opts : List Opt) : ∀ (cfg : Config),
    (∀ o ∈ opts, continues o = true) → ∃ cfg2, option_loop env opts cfg = Except.ok cfg2 := by
  induction opts with
  | nil => intro cfg _; exact ⟨cfg, rfl⟩
  | cons o rest ih =>
    intro cfg hc
    have hrest : ∀ x ∈ rest, continues x = true := fun x hx => hc x (List.mem_cons_of_mem _ hx)
    have ho := hc o (List.mem_cons_self _ _)
    cases o with
    | s => exact ih _ hrest
    | j => exact ih _ hrest
    | p optarg => exact ih _ hrest
    | h => simp [continues] at ho
    | v => simp [continues] at ho
    | other d => simp [continues] at ho

theorem lastPort_flags (post : List Opt) (hpost : ∀ o ∈ post, isFlag o = true) :
    lastPort post = none := by
  induction post with
  | nil => rfl
  | cons o rest ih =>
    have hrest : ∀ x ∈ rest, isFlag x = true := fun x hx => hpost x (List.mem_cons_of_mem _ hx)
    have ho := hpost o (List.mem_cons_self _ _)
    cases o <;> simp [isFlag] at ho <;> simp [lastPort, ih hrest]

theorem lastPort_append (pre : List Opt) (p : CStr) (post : List Opt)
    (hpost : ∀ o ∈ post, isFlag o = true) : lastPort (pre ++ Opt.p p :: post) = some p := by
  induction pre with
  | nil => simp [lastPort, lastPort_flags post hpost]
  | cons o rest ih => cases o <;> simp [lastPort, ih]

theorem continues_of_isFlag (o : Opt) (h : isFlag o = true) : continues o = true := by
  cases o <;> simp [isFlag] at h <;> rfl

/-- The run of `main` for option values that end with a configuration. -/
theorem main_eq_main_body (env : Env) (opts : List Opt) (cfg : Config) (h : CStr)
    (rest : List CStr) (hl : option_loop env opts init_config = Except.ok cfg) :
    main env opts (h :: rest) = main_body env cfg h := by
  simp only [main, hl]

/-- Whatever the run, stderr holds one of the texts of `stderr_forms`. -/
theorem main_body_stderr_forms (env : Env) (cfg : Config) (h : CStr) :
    stderr_forms env h (main_body env cfg h).stderr := by
  by_cases hctx : env.ctx_new = true
  · by_cases hssl : env.get_ssl = true
    · by_cases hconn : env.do_connect (conn_target cfg h) h ≤ 0
      · rw [main_body_connect_error env cfg h hctx hssl hconn]
        split_ifs
        · exact Or.inl rfl
        · exact Or.inr (Or.inr (Or.inr (Or.inl rfl)))
      · cases hcert : env.peer_cert (conn_target cfg h) h with
        | none =>
          rw [main_body_no_cert env cfg h hctx hssl (not_le.mp hconn) hcert]
          split_ifs
          · exact Or.inl rfl
          · exact Or.inr (Or.inr (Or.inr (Or.inr (Or.inl rfl))))
        | some cert =>
          have hr : reaches_cert env cfg h cert := ⟨hctx, hssl, not_le.mp hconn, hcert⟩
          by_cases hneg : days_until_expiration env.now cert < 0
          · rw [main_body_negative env cfg h cert hr hneg]
            split_ifs
            · exact Or.inl rfl
            · exact Or.inr (Or.inr (Or.inr (Or.inr (Or.inr rfl))))
          · rw [main_body_days env cfg h cert hr (not_lt.mp hneg)]
            split_ifs <;> exact Or.inl rfl
    · rw [main_body_ssl_error env cfg h hctx (by simpa using hssl)]
      split_ifs
      · exact Or.inl rfl
      · exact Or.inr (Or.inr (Or.inl rfl))
  · rw [main_body_ctx_error env cfg h (by simpa using hctx)]
    split_ifs
    · exact Or.inl rfl
    · exact Or.inr (Or.inl rfl)

/-- Once the context and the session object exist, the session holds the
SNI name that `SSL_set_tlsext_host_name` set for the hostname, and the
connection target is the one built from the configuration. -/
theorem main_body_names (env : Env) (cfg : Config) (h : CStr) (hctx : env.ctx_new = true)
    (hssl : env.get_ssl = true) :
    (main_body env cfg h).sni = SSL_set_tlsext_host_name h ∧
      (main_body env cfg h).target = some (conn_target cfg h) := by
  by_cases hconn : env.do_connect (conn_target cfg h) h ≤ 0
  · rw [main_body_connect_error env cfg h hctx hssl hconn]
    split_ifs <;> exact ⟨rfl, rfl⟩
  · cases hcert : env.peer_cert (conn_target cfg h) h with
    | none =>
      rw [main_body_no_cert env cfg h hctx hssl (not_le.mp hconn) hcert]
      split_ifs <;> exact ⟨rfl, rfl⟩
    | some cert =>
      have hr : reaches_cert env cfg h cert := ⟨hctx, hssl, not_le.mp hconn, hcert⟩
      by_cases hneg : days_until_expiration env.now cert < 0
      · rw [main_body_negative env cfg h cert hr hneg]
        split_ifs <;> exact ⟨rfl, rfl⟩
      · rw [main_body_days env cfg h cert hr (not_lt.mp hneg)]
        split_ifs <;> exact ⟨rfl, rfl⟩

/-- One run with the port option `p` in force: the names handed to the
session and the transport, and the texts on stdout and stderr. -/
theorem main_with_port (env : Env) (pre post : List Opt) (h : CStr) (rest : List CStr) (p : CStr)
    (hpre : ∀ o ∈ pre, continues o = true) (hpost : ∀ o ∈ post, isFlag o = true)
    (hctx : env.ctx_new = true) (hssl : env.get_ssl = true) :
    (main env (pre ++ Opt.p p :: post) (h :: rest)).sni
        = (if 0 < h.length ∧ h.length ≤ 255 then some h else none) ∧
      (main env (pre ++ Opt.p p :: post) (h :: rest)).target
        = some ((h ++ ':' :: p.take 5).take 511) ∧
      stdout_forms env h (main env (pre ++ Opt.p p :: post) (h :: rest)).stdout ∧
      stderr_forms env h (main env (pre ++ Opt.p p :: post) (h :: rest)).stderr := by
  have hall : ∀ o ∈ pre ++ Opt.p p :: post, continues o = true := by
    intro o ho
    rcases List.mem_append.mp ho with ho | ho
    · exact hpre o ho
    · rcases List.mem_cons.mp ho with rfl | ho
      · rfl
      · exact continues_of_isFlag o (hpost o ho)
  obtain ⟨cfg, hcfg⟩ := option_loop_continues env _ init_config hall
  have hport := option_loop_port env _ _ _ hcfg
  rw [lastPort_append pre p post hpost] at hport
  simp only at hport
  rw [main_eq_main_body env _ cfg h rest hcfg]
  obtain ⟨h1, h2⟩ := main_body_names env cfg h hctx hssl
  refine ⟨h1, ?_, main_body_stdout_forms env cfg h, main_body_stderr_forms env cfg h⟩
  rw [h2, conn_target_eq, hport]

/-- C9 (as amended): for two runs that differ only in the argument of the
port option in force (`p1` against `p2`), once the context and the session
object exist: (1) the SNI name set on the session is the same in both runs
and does not depend on the port: it is the hostname argument as given when
the hostname has 1 to 255 bytes, and no name is set for an empty or longer
hostname; (2) whatever the runs write to stdout and stderr shows no other
domain than the hostname argument as given; (3) the connection target
handed to the transport is the first 511 bytes of the hostname, a colon and
the first 5 bytes of the port argument.  So for a hostname of 1 to 255
bytes and port arguments of at most 5 bytes, the SNI name is `h` and the
targets are `h:p1` and `h:p2`. -/
theorem port_option_frame (env : Env) (pre post : List Opt) (h : CStr) (rest : List CStr)
    (p1 p2 : CStr) (hpre : ∀ o ∈ pre, continues o = true) (hpost : ∀ o ∈ post, isFlag o = true)
    (hctx : env.ctx_new = true) (hssl : env.get_ssl = true) :
    (main env (pre ++ Opt.p p1 :: post) (h :: rest)).sni
        = (if 0 < h.length ∧ h.length ≤ 255 then some h else none) ∧
      (main env (pre ++ Opt.p p2 :: post) (h :: rest)).sni
        = (if 0 < h.length ∧ h.length ≤ 255 then some h else none) ∧
      stdout_forms env h (main env (pre ++ Opt.p p1 :: post) (h :: rest)).stdout ∧
      stdout_forms env h (main env (pre ++ Opt.p p2 :: post) (h :: rest)).stdout ∧
      stderr_forms env h (main env (pre ++ Opt.p p1 :: post) (h :: rest)).stderr ∧
      stderr_forms env h (main env (pre ++ Opt.p p2 :: post) (h :: rest)).stderr ∧
      (main env (pre ++ Opt.p p1 :: post) (h :: rest)).target
        = some ((h ++ ':' :: p1.take 5).take 511) ∧
      (main env (pre ++ Opt.p p2 :: post) (h :: rest)).target
        = some ((h ++ ':' :: p2.take 5).take 511) ∧
      (0 < h.length → h.length ≤ 255 → p1.length ≤ 5 → p2.length ≤ 5 →
        (main env (pre ++ Opt.p p1 :: post) (h :: rest)).sni = some h ∧
        (main env (pre ++ Opt.p p2 :: post) (h :: rest)).sni = some h ∧
        (main env (pre ++ Opt.p p1 :: post) (h :: rest)).target = some (h ++ ':' :: p1) ∧
        (main env (pre ++ Opt.p p2 :: post) (h :: rest)).target = some (h ++ ':' :: p2)) := by
  have fits : ∀ p : CStr, p.length ≤ 5 → h.length ≤ 255 →
      (h ++ ':' :: p.take 5).take 511 = h ++ ':' :: p := by
    intro p hp5 hp255
    rw [List.take_of_length_le hp5, List.take_of_length_le]
    simp only [List.length_append, List.length_cons]
    omega
  obtain ⟨a1, a2, a3, a4⟩ := main_with_port env pre post h rest p1 hpre hpost hctx hssl
  obtain ⟨b1, b2, b3, b4⟩ := main_with_port env pre post h rest p2 hpre hpost hctx hssl
  refine ⟨a1, b1, a3, b3, a4, b4, a2, b2, fun h0 h255 h5 h5b => ?_⟩
  rw [a1, b1, a2, b2, if_pos ⟨h0, h255⟩, fits p1 h5 h255, fits p2 h5b h255]
  exact ⟨rfl, rfl, rfl, rfl⟩

theorem port_option_frame_witness :
    (main (sample_env 1000 (some 200000)) [Opt.s, Opt.p "443".toList, Opt.j] ["a".toList]).sni
        = some "a".toList ∧
      (main (sample_env 1000 (some 200000)) [Opt.s, Opt.p "8443".toList, Opt.j] ["a".toList]).sni
        = some "a".toList ∧
      (main (sample_env 1000 (some 200000)) [Opt.s, Opt.p "443".toList, Opt.j] ["a".toList]).target
        = some "a:443".toList ∧
      (main (sample_env 1000 (some 200000)) [Opt.s, Opt.p "8443".toList, Opt.j] ["a".toList]).target
        = some "a:8443".toList ∧
      (main (sample_env 1000 (some 200000)) [Opt.s, Opt.p "8443".toList, Opt.j] ["a".toList]).stdout
        = "\x7b\"domain\": \"a\", \"days\": 2\x7d\n".toList ∧
      (main refusing_env [Opt.p "8443".toList] ["a".toList]).stderr
        = "Error connecting to a\n".toList ∧
      (main refusing_env [Opt.p "8443".toList] [[]]).sni = none :=
  have w := (port_option_frame (sample_env 1000 (some 200000)) [Opt.s] [Opt.j] "a".toList []
    "443".toList "8443".toList (by decide) (by decide) rfl rfl).2.2.2.2.2.2.2.2
    (by decide) (by decide) (by decide) (by decide)
  ⟨w.1, w.2.1, w.2.2.1, w.2.2.2, by decide, by decide, by decide⟩

/-- C9 (as stated) fails: with the port argument `123456` the target handed
to the transport is `a:12345`, not `a:123456`; and the run with the port
argument `123457` has the same target, so changing the port argument changes
nothing in the target. -/
theorem long_port_argument_is_cut :
    (main (sample_env 1000 (some 200000)) [Opt.p "123456".toList] ["a".toList]).target
        = some "a:12345".toList ∧
      (main (sample_env 1000 (some 200000)) [Opt.p "123456".toList] ["a".toList]).target
        ≠ some "a:123456".toList ∧
      (main (sample_env 1000 (some 200000)) [Opt.p "123457".toList] ["a".toList]).target
        = (main (sample_env 1000 (some 200000)) [Opt.p "123456".toList] ["a".toList]).target := by
  decide

/-- C10 (as amended): when the option loop ends without a `return`, the
port it leaves is at most 5 characters long; it is `443` when no port
option was given, and otherwise the first 5 characters of the argument of
the last port option, taken as they are, without a check that they form a
number; it is empty exactly when that argument is empty. -/
theorem port_after_option_loop (env : Env) (opts : List Opt) (cfg : Config)
    (hl : option_loop env opts init_config = Except.ok cfg) :
    cfg.port.length ≤ 5 ∧
      cfg.port = (match lastPort opts with
        | none => "443".toList
        | some tok => tok.take 5) ∧
      (cfg.port = [] ↔ lastPort opts = some []) := by
  have hport := option_loop_port env opts init_config cfg hl
  cases hlast : lastPort opts with
  | none =>
    rw [hlast] at hport
    simp only at hport
    rw [hport]
    exact ⟨by decide, rfl, by decide⟩
  | some tok =>
    rw [hlast] at hport
    simp only at hport
    rw [hport]
    refine ⟨by simp [List.length_take], rfl, ?_⟩
    cases tok <;> simp

theorem port_after_option_loop_witness :
    option_loop refusing_env [Opt.p "80".toList, Opt.s, Opt.p "8443".toList] init_config
        = Except.ok { short_output := true, json_output := false, port := "8443".toList } ∧
      "8443".toList.length ≤ 5 ∧
      lastPort [Opt.p "80".toList, Opt.s, Opt.p "8443".toList] = some "8443".toList :=
  have hl : option_loop refusing_env [Opt.p "80".toList, Opt.s, Opt.p "8443".toList] init_config
      = Except.ok { short_output := true, json_output := false, port := "8443".toList } := rfl
  ⟨hl, (port_after_option_loop refusing_env _ _ hl).1, rfl⟩

/-- C10 (as stated) fails: an empty argument of the port option leaves an
empty port, so that the connection target is `a:`; and an argument of six
characters is not passed on as it is, the port keeps its first five. -/
theorem port_can_be_empty_or_cut :
    option_loop refusing_env [Opt.p []] init_config
        = Except.ok { short_output := false, json_output := false, port := [] } ∧
      (main refusing_env [Opt.p []] ["a".toList]).target = some "a:".toList ∧
      option_loop refusing_env [Opt.p "123456".toList] init_config
        = Except.ok { short_output := false, json_output := false, port := "12345".toList } ∧
      "12345".toList ≠ "123456".toList := by
  refine ⟨rfl, by decide, rfl, by decide⟩

end SslCheck
